import Mathlib

/-!
Shallow embedding of the font cache, glyph-coverage, fallback and line-layout
code of src/internal/backends/gl/fonts.rs (slint femtovg backend).

External collaborators (fontdb database queries, ttf face parsing via
glyph_index, femtovg text context measurement, the platform fallback
enumerators and the Unicode script tables) are modelled as oracle functions
passed in explicitly; all hash maps and sets become association lists with
overwrite-insert, and f32 arithmetic becomes exact rational arithmetic.
-/

set_option maxRecDepth 4000

namespace SlintFonts

/-- Association-list lookup, modelling HashMap::get on unique-key maps. -/
def alookup {α β : Type} [DecidableEq α] : List (α × β) → α → Option β
  | [], _ => none
  | (k, v) :: rest, key => if key = k then some v else alookup rest key

/-- Remove every binding of a key, helper for overwrite-insert. -/
def eraseKey {α β : Type} [DecidableEq α] : List (α × β) → α → List (α × β)
  | [], _ => []
  | p :: rest, key => if p.1 = key then eraseKey rest key else p :: eraseKey rest key

/-- Association-list overwrite-insert, modelling HashMap::insert. -/
def minsert {α β : Type} [DecidableEq α] (m : List (α × β)) (key : α) (v : β) :
    List (α × β) :=
  (key, v) :: eraseKey m key

/-- Set insert, modelling HashSet::insert. -/
def sinsert (s : List Char) (ch : Char) : List Char :=
  if ch ∈ s then s else ch :: s

theorem alookup_minsert_self {α β : Type} [DecidableEq α] (m : List (α × β)) (k : α) (v : β) :
    alookup (minsert m k v) k = some v := by
  simp [minsert, alookup]

/-- fontdb face identifier (fontdb::ID), abstract. -/
abbrev FaceId := Nat

/-- femtovg font identifier (femtovg::FontId), abstract. -/
abbrev FemtovgFontId := Nat

/-- unicode_script::Script: the three heterogeneous script classes are named,
every other concrete script is an opaque tag. -/
inductive Script where
  | Common
  | Inherited
  | Unknown
  | Other (tag : Nat)
deriving DecidableEq

/-- Test for Script::Common, Script::Inherited and Script::Unknown, the three
scripts that the source checks per character rather than per script. -/
def Script.isCommonLike : Script → Bool
  | .Common => true
  | .Inherited => true
  | .Unknown => true
  | .Other _ => false

def emptyString : String := ""

/-- i_slint_core::graphics::FontRequest. -/
structure FontRequest where
  family : Option String
  weight : Option Int
  pixel_size : Option ℚ
  letter_spacing : Option ℚ
deriving DecidableEq

/-- Cache key of the loaded-font map: (normalized family, weight). -/
structure FontCacheKey where
  family : String
  weight : Int
deriving DecidableEq

/-- LoadedFont: one resolved face handle plus its design-unit metrics. -/
structure LoadedFont where
  femtovg_font_id : FemtovgFontId
  fontdb_face_id : FaceId
  ascent : ℚ
  descent : ℚ
  units_per_em : ℚ
deriving DecidableEq

/-- ScaledFont: a LoadedFont stamped with a concrete pixel size. -/
structure ScaledFont where
  font : LoadedFont
  pixel_size : ℚ
deriving DecidableEq

/-- Composite Font: ordered ScaledFont list (primary first) plus shared pixel size. -/
structure Font where
  fonts : List ScaledFont
  pixel_size : ℚ
deriving DecidableEq

/-- GlyphCoverage: per-face memo of script-level and per-character coverage. -/
structure GlyphCoverage where
  supported_scripts : List (Script × Bool)
  exact_glyph_coverage : List (Char × Bool)
deriving DecidableEq

def GlyphCoverage.empty : GlyphCoverage := ⟨[], []⟩

inductive GlyphCoverageCheckResult where
  | Incomplete
  | Improved
  | Complete
deriving DecidableEq

/-- The mutable state of FontCache: the loaded-font map, the coverage table and
the id counter standing for the femtovg text context registration. -/
structure FontCache where
  loaded_fonts : List (FontCacheKey × LoadedFont)
  loaded_font_coverage : List (FaceId × GlyphCoverage)
  next_femtovg_font_id : Nat
deriving DecidableEq

/-- Oracles for the external fontdb database and ttf face parsing:
query (with none = Family::SansSerif), with_face_data + glyph_index
(none models an unavailable face), and the parsed design-unit metrics. -/
structure FontDb where
  query : Option String → Int → Option FaceId
  faceData : FaceId → Option (Char → Bool)
  faceAscent : FaceId → ℚ
  faceDescent : FaceId → ℚ
  faceUnitsPerEm : FaceId → ℚ

/-- Result of load_single_font: the handle, the cache afterwards, and how many
font-database queries and shaping-backend registrations the call performed. -/
structure LoadOutput where
  font : LoadedFont
  cache : FontCache
  dbQueries : Nat
  registrations : Nat
deriving DecidableEq

/-- FontCache::load_single_font. Returns none where the source panics
(weight.unwrap() on a missing weight, or no sans-serif face registered). -/
def load_single_font (db : FontDb) (c : FontCache) (request : FontRequest) :
    Option LoadOutput :=
  match request.weight with
  | none => none
  | some weight =>
    let cache_key : FontCacheKey := ⟨request.family.getD emptyString, weight⟩
    match alookup c.loaded_fonts cache_key with
    | some loaded_font => some ⟨loaded_font, c, 0, 0⟩
    | none =>
      let first := db.query request.family weight
      let queries := match first with
        | some _ => 1
        | none => 2
      let found := match first with
        | some id => some id
        | none => db.query none weight
      match found with
      | none => none
      | some fontdb_face_id =>
        let new_font : LoadedFont :=
          ⟨c.next_femtovg_font_id, fontdb_face_id, db.faceAscent fontdb_face_id,
            db.faceDescent fontdb_face_id, db.faceUnitsPerEm fontdb_face_id⟩
        some ⟨new_font,
          { loaded_fonts := minsert c.loaded_fonts cache_key new_font,
            loaded_font_coverage := c.loaded_font_coverage,
            next_femtovg_font_id := c.next_femtovg_font_id + 1 },
          queries, 1⟩

/-- Claim C4: resolving the same (family, weight) request twice through
load_single_font is idempotent: after a first successful call, a second call
with the same normalized family and the same weight returns the very same
LoadedFont handle, leaves the cache unchanged, and performs zero font-database
queries and zero shaping-backend registrations. -/
theorem load_single_font_idempotent (db : FontDb) (c : FontCache)
    (r1 r2 : FontRequest) (o : LoadOutput)
    (h1 : load_single_font db c r1 = some o)
    (hfam : r2.family.getD emptyString = r1.family.getD emptyString)
    (hw : r2.weight = r1.weight) :
    load_single_font db o.cache r2 = some ⟨o.font, o.cache, 0, 0⟩ := by
  match hr1w : r1.weight with
  | none =>
    rw [load_single_font, hr1w] at h1
    exact absurd h1 (by simp)
  | some w =>
    rw [load_single_font, hr1w] at h1
    rw [load_single_font, hw, hr1w]
    simp only at h1 ⊢
    rw [hfam]
    cases hhit : alookup c.loaded_fonts ⟨r1.family.getD emptyString, w⟩ with
    | some f =>
      rw [hhit] at h1
      simp only [Option.some.injEq] at h1
      subst h1
      simp [hhit]
    | none =>
      rw [hhit] at h1
      cases hfound : (match db.query r1.family w with
          | some id => some id
          | none => db.query none w) with
      | none =>
        rw [hfound] at h1
        exact absurd h1 (by simp)
      | some face_id =>
        rw [hfound] at h1
        simp only [Option.some.injEq] at h1
        subst h1
        simp [alookup_minsert_self]

def exCacheEmpty : FontCache := ⟨[], [], 0⟩

def exDbW : FontDb :=
  ⟨fun _ _ => some 7, fun _ => some (fun _ => true), fun _ => 3, fun _ => -1, fun _ => 4⟩

def exReqW : FontRequest := ⟨none, some 400, none, none⟩

def exLoadOut : LoadOutput :=
  ⟨⟨0, 7, 3, -1, 4⟩, ⟨[(⟨emptyString, 400⟩, ⟨0, 7, 3, -1, 4⟩)], [], 1⟩, 1, 1⟩

/-- Witness for C4: a concrete first load followed by a second resolution of the
same request, returning the identical handle with zero queries and
registrations. -/
theorem load_single_font_idempotent_witness :
    load_single_font exDbW exLoadOut.cache exReqW = some ⟨exLoadOut.font, exLoadOut.cache, 0, 0⟩ :=
  load_single_font_idempotent exDbW exCacheEmpty exReqW exReqW exLoadOut (by decide) rfl rfl

/-- Oracles for the Unicode character tables consulted by the source:
char::script(), char::is_control(), char::is_whitespace(). -/
structure UnicodeEnv where
  scriptOf : Char → Script
  isControl : Char → Bool
  isWhitespace : Char → Bool

/-- A coverage probe: with_face_data + glyph_index, with unwrap_or(false) when
the face data is unavailable. -/
def probeGlyph (db : FontDb) (face_id : FaceId) (ch : Char) : Bool :=
  match db.faceData face_id with
  | some hasGlyph => hasGlyph ch
  | none => false

/-- Result of face_supports_char: the answer, the cache afterwards, and how
many face probes (with_face_data closure runs) the call performed. -/
structure SupportsOutput where
  supported : Bool
  cache : FontCache
  probes : Nat
deriving DecidableEq

/-- FontCache::face_supports_char: per-character memo for Common, Inherited
and Unknown scripts, per-script memo otherwise; a missing entry triggers one
face probe whose answer is recorded. -/
def face_supports_char (db : FontDb) (env : UnicodeEnv) (c : FontCache)
    (face_id : FaceId) (ch : Char) : SupportsOutput :=
  let coverage := (alookup c.loaded_font_coverage face_id).getD GlyphCoverage.empty
  let script := env.scriptOf ch
  if script.isCommonLike then
    match alookup coverage.exact_glyph_coverage ch with
    | some b => ⟨b, c, 0⟩
    | none =>
      let b := probeGlyph db face_id ch
      let coverage2 : GlyphCoverage :=
        ⟨coverage.supported_scripts, minsert coverage.exact_glyph_coverage ch b⟩
      ⟨b, { c with loaded_font_coverage := minsert c.loaded_font_coverage face_id coverage2 }, 1⟩
  else
    match alookup coverage.supported_scripts script with
    | some b => ⟨b, c, 0⟩
    | none =>
      let b := probeGlyph db face_id ch
      let coverage2 : GlyphCoverage :=
        ⟨minsert coverage.supported_scripts script b, coverage.exact_glyph_coverage⟩
      ⟨b, { c with loaded_font_coverage := minsert c.loaded_font_coverage face_id coverage2 }, 1⟩

/-- The key under which face_supports_char memoizes a character: the character
itself for Common/Inherited/Unknown scripts, its script otherwise. -/
def coverageKey (env : UnicodeEnv) (ch : Char) : Sum Script Char :=
  if (env.scriptOf ch).isCommonLike then Sum.inr ch else Sum.inl (env.scriptOf ch)

/-- Claim C5: glyph coverage is memoized: after any face_supports_char call, a
repeated query against the resulting cache for the same face and the same
memo key (same character for Common/Inherited/Unknown scripts, any character
of the same script otherwise) returns the same boolean, performs zero face
probes, and leaves the coverage table unchanged. -/
theorem face_supports_char_memoized (db : FontDb) (env : UnicodeEnv)
    (c : FontCache) (face_id : FaceId) (ch ch2 : Char) (o : SupportsOutput)
    (h : face_supports_char db env c face_id ch = o)
    (hk : coverageKey env ch2 = coverageKey env ch) :
    face_supports_char db env o.cache face_id ch2 = ⟨o.supported, o.cache, 0⟩ := by
  rw [face_supports_char] at h
  rw [face_supports_char]
  simp only at h ⊢
  split at h
  case isTrue hcl =>
    obtain ⟨hcl2, hch⟩ : (env.scriptOf ch2).isCommonLike = true ∧ ch2 = ch := by
      unfold coverageKey at hk
      rw [if_pos hcl] at hk
      by_cases hcl2 : (env.scriptOf ch2).isCommonLike = true
      · rw [if_pos hcl2] at hk
        exact ⟨hcl2, by injection hk⟩
      · rw [if_neg hcl2] at hk
        exact absurd hk (by simp)
    split at h
    case h_1 b hhit =>
      subst h
      simp only
      rw [hch, if_pos hcl, hhit]
    case h_2 hhit =>
      subst h
      simp only
      rw [hch, if_pos hcl]
      simp [alookup_minsert_self]
  case isFalse hcl =>
    obtain ⟨hcl2, hsc⟩ :
        ¬ (env.scriptOf ch2).isCommonLike = true ∧ env.scriptOf ch2 = env.scriptOf ch := by
      unfold coverageKey at hk
      rw [if_neg hcl] at hk
      by_cases hcl2 : (env.scriptOf ch2).isCommonLike = true
      · rw [if_pos hcl2] at hk
        exact absurd hk (by simp)
      · rw [if_neg hcl2] at hk
        exact ⟨hcl2, by injection hk⟩
    split at h
    case h_1 b hhit =>
      subst h
      simp only
      rw [hsc, if_neg hcl, hhit]
    case h_2 hhit =>
      subst h
      simp only
      rw [hsc, if_neg hcl]
      simp [alookup_minsert_self]

/-- Result of check_and_update_script_coverage: the classification, the two
working uncovered sets afterwards, and the cache afterwards. -/
structure CoverageCheckOutput where
  result : GlyphCoverageCheckResult
  scripts : List (Script × Char)
  chars : List Char
  cache : FontCache
deriving DecidableEq

/-- The final classification computed at the end of
check_and_update_script_coverage from the old and remaining sizes of the two
working sets. -/
def coverageResultOf (old_s old_c : Nat) (scripts2 : List (Script × Char))
    (chars2 : List Char) : GlyphCoverageCheckResult :=
  if scripts2.length < old_s ∨ chars2.length < old_c then .Improved
  else if scripts2 = [] ∧ chars2 = [] then .Complete
  else .Incomplete

/-- FontCache::check_and_update_script_coverage: drop from the working sets
every entry the face is already known to cover, probe the face once for each
still-unknown entry (recording the answers in the coverage memo), drop the
entries whose probe succeeded, and classify the outcome from the set sizes. -/
def check_and_update_script_coverage (db : FontDb) (c : FontCache)
    (scripts_without_coverage : List (Script × Char)) (chars_without_coverage : List Char)
    (face_id : FaceId) : CoverageCheckOutput :=
  let coverage := (alookup c.loaded_font_coverage face_id).getD GlyphCoverage.empty
  let old_uncovered_scripts_count := scripts_without_coverage.length
  let old_uncovered_chars_count := chars_without_coverage.length
  let scripts_that_need_checking := scripts_without_coverage.filter
    (fun p => (alookup coverage.supported_scripts p.1).isNone)
  let chars_that_need_checking := chars_without_coverage.filter
    (fun ch => (alookup coverage.exact_glyph_coverage ch).isNone)
  let scripts1 := scripts_without_coverage.filter
    (fun p => match alookup coverage.supported_scripts p.1 with
      | none => true
      | some has_coverage => ! has_coverage)
  let chars1 := chars_without_coverage.filter
    (fun ch => match alookup coverage.exact_glyph_coverage ch with
      | none => true
      | some has_coverage => ! has_coverage)
  let probe :=
    if scripts_that_need_checking ≠ [] ∨ chars_that_need_checking ≠ [] then
      db.faceData face_id
    else none
  match probe with
  | none =>
    ⟨coverageResultOf old_uncovered_scripts_count old_uncovered_chars_count scripts1 chars1,
      scripts1, chars1,
      { c with loaded_font_coverage := minsert c.loaded_font_coverage face_id coverage }⟩
  | some hasGlyph =>
    let coverage2 : GlyphCoverage :=
      ⟨scripts_that_need_checking.foldl (fun m p => minsert m p.1 (hasGlyph p.2))
          coverage.supported_scripts,
        chars_that_need_checking.foldl (fun m ch => minsert m ch (hasGlyph ch))
          coverage.exact_glyph_coverage⟩
    let scripts2 := scripts1.filter
      (fun p => ! ((alookup coverage.supported_scripts p.1).isNone && hasGlyph p.2))
    let chars2 := chars1.filter
      (fun ch => ! ((alookup coverage.exact_glyph_coverage ch).isNone && hasGlyph ch))
    ⟨coverageResultOf old_uncovered_scripts_count old_uncovered_chars_count scripts2 chars2,
      scripts2, chars2,
      { c with loaded_font_coverage := minsert c.loaded_font_coverage face_id coverage2 }⟩

theorem check_scripts_subset (db : FontDb) (c : FontCache)
    (scripts : List (Script × Char)) (chars : List Char) (face_id : FaceId) :
    (check_and_update_script_coverage db c scripts chars face_id).scripts ⊆ scripts := by
  rw [check_and_update_script_coverage]
  simp only
  split
  · exact List.filter_subset' _
  · exact List.Sublist.subset
      (List.Sublist.trans (List.filter_sublist _) (List.filter_sublist _))

theorem check_chars_subset (db : FontDb) (c : FontCache)
    (scripts : List (Script × Char)) (chars : List Char) (face_id : FaceId) :
    (check_and_update_script_coverage db c scripts chars face_id).chars ⊆ chars := by
  rw [check_and_update_script_coverage]
  simp only
  split
  · exact List.filter_subset' _
  · exact List.Sublist.subset
      (List.Sublist.trans (List.filter_sublist _) (List.filter_sublist _))

theorem check_scripts_length_le (db : FontDb) (c : FontCache)
    (scripts : List (Script × Char)) (chars : List Char) (face_id : FaceId) :
    (check_and_update_script_coverage db c scripts chars face_id).scripts.length ≤
      scripts.length := by
  rw [check_and_update_script_coverage]
  simp only
  split
  · exact List.length_filter_le _ _
  · exact le_trans (List.length_filter_le _ _) (List.length_filter_le _ _)

theorem check_chars_length_le (db : FontDb) (c : FontCache)
    (scripts : List (Script × Char)) (chars : List Char) (face_id : FaceId) :
    (check_and_update_script_coverage db c scripts chars face_id).chars.length ≤
      chars.length := by
  rw [check_and_update_script_coverage]
  simp only
  split
  · exact List.length_filter_le _ _
  · exact le_trans (List.length_filter_le _ _) (List.length_filter_le _ _)

theorem check_result_eq (db : FontDb) (c : FontCache)
    (scripts : List (Script × Char)) (chars : List Char) (face_id : FaceId) :
    (check_and_update_script_coverage db c scripts chars face_id).result =
      coverageResultOf scripts.length chars.length
        (check_and_update_script_coverage db c scripts chars face_id).scripts
        (check_and_update_script_coverage db c scripts chars face_id).chars := by
  rw [check_and_update_script_coverage]
  simp only
  split
  · rfl
  · rfl

/-- Claim C6: check_and_update_script_coverage only shrinks the working
uncovered sets: every script entry and every character that survives the call
was already in the corresponding set before the call, and both sizes are
non-increasing. -/
theorem coverage_check_shrinks (db : FontDb) (c : FontCache)
    (scripts : List (Script × Char)) (chars : List Char) (face_id : FaceId) :
    (∀ p ∈ (check_and_update_script_coverage db c scripts chars face_id).scripts, p ∈ scripts)
    ∧ (∀ ch ∈ (check_and_update_script_coverage db c scripts chars face_id).chars, ch ∈ chars)
    ∧ (check_and_update_script_coverage db c scripts chars face_id).scripts.length ≤ scripts.length
    ∧ (check_and_update_script_coverage db c scripts chars face_id).chars.length ≤ chars.length :=
  ⟨fun _ hp => check_scripts_subset db c scripts chars face_id hp,
    fun _ hch => check_chars_subset db c scripts chars face_id hch,
    check_scripts_length_le db c scripts chars face_id,
    check_chars_length_le db c scripts chars face_id⟩

/-- Classification of coverageResultOf, assuming the remaining sets are no
larger than the old ones (which check_and_update_script_coverage guarantees). -/
theorem coverageResultOf_spec (old_s old_c : Nat) (s2 : List (Script × Char))
    (c2 : List Char) (hs : s2.length ≤ old_s) (hc : c2.length ≤ old_c) :
    (coverageResultOf old_s old_c s2 c2 = .Improved ↔
        (s2.length < old_s ∨ c2.length < old_c))
    ∧ (coverageResultOf old_s old_c s2 c2 = .Complete ↔
        (s2.length = old_s ∧ c2.length = old_c ∧ s2 = [] ∧ c2 = []))
    ∧ (coverageResultOf old_s old_c s2 c2 = .Incomplete ↔
        (s2.length = old_s ∧ c2.length = old_c ∧ ¬(s2 = [] ∧ c2 = []))) := by
  rw [coverageResultOf]
  by_cases himp : s2.length < old_s ∨ c2.length < old_c
  · rw [if_pos himp]
    refine ⟨⟨fun _ => himp, fun _ => rfl⟩, ⟨fun h => absurd h (by simp), ?_⟩,
      ⟨fun h => absurd h (by simp), ?_⟩⟩
    · rintro ⟨h1, h2, _, _⟩
      omega
    · rintro ⟨h1, h2, _⟩
      omega
  · rw [if_neg himp]
    have hseq : s2.length = old_s := by omega
    have hceq : c2.length = old_c := by omega
    by_cases hemp : s2 = [] ∧ c2 = []
    · rw [if_pos hemp]
      exact ⟨⟨fun h => absurd h (by simp), fun h => absurd h (by omega)⟩,
        ⟨fun _ => ⟨hseq, hceq, hemp.1, hemp.2⟩, fun _ => rfl⟩,
        ⟨fun h => absurd h (by simp), fun h => absurd hemp h.2.2⟩⟩
    · rw [if_neg hemp]
      exact ⟨⟨fun h => absurd h (by simp), fun h => absurd h (by omega)⟩,
        ⟨fun h => absurd h (by simp), fun h => absurd ⟨h.2.2.1, h.2.2.2⟩ hemp⟩,
        ⟨fun _ => ⟨hseq, hceq, hemp⟩, fun _ => rfl⟩⟩

/-- Counterexample to claim C2: a working set holding one script that the face
covers. After the check nothing is left uncovered (both working sets end
empty), yet the classification is Improved, not Complete as the claim demands. -/
theorem coverage_result_complete_counterexample :
    (check_and_update_script_coverage exDbW exCacheEmpty [(Script.Other 0, 'a')] [] 7).scripts = []
    ∧ (check_and_update_script_coverage exDbW exCacheEmpty [(Script.Other 0, 'a')] [] 7).chars = []
    ∧ (check_and_update_script_coverage exDbW exCacheEmpty [(Script.Other 0, 'a')] [] 7).result =
        GlyphCoverageCheckResult.Improved
    ∧ (check_and_update_script_coverage exDbW exCacheEmpty [(Script.Other 0, 'a')] [] 7).result ≠
        GlyphCoverageCheckResult.Complete := by
  decide

/-- Claim C2 (amended): the classification returned by
check_and_update_script_coverage is Improved whenever the call removed at
least one entry from the working sets, even when nothing is left uncovered;
Complete only when nothing was removed and both working sets are empty (which
requires them to have been empty already); Incomplete when nothing was removed
and something remains. -/
theorem coverage_check_classification (db : FontDb) (c : FontCache)
    (scripts : List (Script × Char)) (chars : List Char) (face_id : FaceId) :
    ((check_and_update_script_coverage db c scripts chars face_id).result =
        GlyphCoverageCheckResult.Improved ↔
      ((check_and_update_script_coverage db c scripts chars face_id).scripts.length < scripts.length
        ∨ (check_and_update_script_coverage db c scripts chars face_id).chars.length < chars.length))
    ∧ ((check_and_update_script_coverage db c scripts chars face_id).result =
        GlyphCoverageCheckResult.Complete ↔
      ((check_and_update_script_coverage db c scripts chars face_id).scripts.length = scripts.length
        ∧ (check_and_update_script_coverage db c scripts chars face_id).chars.length = chars.length
        ∧ (check_and_update_script_coverage db c scripts chars face_id).scripts = []
        ∧ (check_and_update_script_coverage db c scripts chars face_id).chars = []))
    ∧ ((check_and_update_script_coverage db c scripts chars face_id).result =
        GlyphCoverageCheckResult.Incomplete ↔
      ((check_and_update_script_coverage db c scripts chars face_id).scripts.length = scripts.length
        ∧ (check_and_update_script_coverage db c scripts chars face_id).chars.length = chars.length
        ∧ ¬((check_and_update_script_coverage db c scripts chars face_id).scripts = []
            ∧ (check_and_update_script_coverage db c scripts chars face_id).chars = []))) := by
  rw [check_result_eq]
  exact coverageResultOf_spec scripts.length chars.length _ _
    (check_scripts_length_le db c scripts chars face_id)
    (check_chars_length_le db c scripts chars face_id)

def exEnv : UnicodeEnv := ⟨fun _ => Script.Other 0, fun _ => false, fun _ => false⟩

def exSupportsOut : SupportsOutput :=
  ⟨true, ⟨[], [(7, ⟨[(Script.Other 0, true)], []⟩)], 0⟩, 1⟩

/-- Witness for C5: a concrete probe for a character of an ordinary script,
followed by a repeated query that hits the memo with zero probes. -/
theorem face_supports_char_memoized_witness :
    face_supports_char exDbW exEnv exSupportsOut.cache 7 'a' =
      ⟨exSupportsOut.supported, exSupportsOut.cache, 0⟩ :=
  face_supports_char_memoized exDbW exEnv exCacheEmpty 7 'a' 'a' exSupportsOut
    (by decide) rfl

/-- The reference-text scan at the start of FontCache::font: skip control and
whitespace characters, record Common/Inherited/Unknown characters in the
required character set and every other character as the sample of its script. -/
def scanText (env : UnicodeEnv) (text : List Char) :
    List (Script × Char) × List Char :=
  text.foldl
    (fun acc ch =>
      if env.isControl ch || env.isWhitespace ch then acc
      else
        let script := env.scriptOf ch
        if script.isCommonLike then (acc.1, sinsert acc.2 ch)
        else (minsert acc.1 script ch, acc.2))
    ([], [])

/-- The platform-specific fallback enumerator
(FontCache::font_fallbacks_for_request), an external oracle. -/
structure Platform where
  font_fallbacks_for_request : FontRequest → LoadedFont → List Char → List FontRequest

/-- State threaded through the fallback-candidate walk inside FontCache::font. -/
structure WalkState where
  result : GlyphCoverageCheckResult
  scripts : List (Script × Char)
  chars : List Char
  cache : FontCache
deriving DecidableEq

/-- Result of the fallback walk: the accepted fallback fonts in order, the
final state, and the candidate requests that were actually passed to
load_single_font, in order. -/
structure WalkOutput where
  accepted : List LoadedFont
  state : WalkState
  loads : List FontRequest
deriving DecidableEq

/-- The fallback-candidate walk of FontCache::font (the filter_map closure over
the candidate list): skip every candidate once the result is Complete,
otherwise load it, re-check coverage against the still-uncovered sets, and
accept it only when that check reports Improved. -/
def fallbackWalk (db : FontDb) : WalkState → List FontRequest → Option WalkOutput
  | st, [] => some ⟨[], st, []⟩
  | st, req :: rest =>
    if st.result = .Complete then
      fallbackWalk db st rest
    else
      match load_single_font db st.cache req with
      | none => none
      | some lo =>
        let out := check_and_update_script_coverage db lo.cache st.scripts st.chars
          lo.font.fontdb_face_id
        match fallbackWalk db ⟨out.result, out.scripts, out.chars, out.cache⟩ rest with
        | none => none
        | some w =>
          some ⟨(if out.result = .Improved then lo.font :: w.accepted else w.accepted),
            w.state, req :: w.loads⟩

def DEFAULT_FONT_SIZE : ℚ := 12

def DEFAULT_FONT_WEIGHT : Int := 400

/-- Result of FontCache::font: the composite font, the cache afterwards, and
the fallback-candidate requests that were loaded during the walk, in order. -/
structure FontOutput where
  font : Font
  cache : FontCache
  loads : List FontRequest
deriving DecidableEq

/-- FontCache::font: normalize the request, load the primary font, scan the
reference text, check primary coverage, enumerate platform fallbacks unless
already Complete, walk them, and assemble the composite font, everything
stamped with the resolved pixel size. -/
def FontCache.font (db : FontDb) (env : UnicodeEnv) (platform : Platform)
    (c : FontCache) (request : FontRequest) (scale_factor : ℚ)
    (reference_text : List Char) : Option FontOutput :=
  let request1 : FontRequest :=
    { request with
      pixel_size := some ((request.pixel_size.getD DEFAULT_FONT_SIZE) * scale_factor),
      weight := match request.weight with
        | some w => some w
        | none => some DEFAULT_FONT_WEIGHT }
  match load_single_font db c request1 with
  | none => none
  | some plo =>
    let scanned := scanText env reference_text
    let out0 := check_and_update_script_coverage db plo.cache scanned.1 scanned.2
      plo.font.fontdb_face_id
    let fallbacks :=
      if out0.result ≠ .Complete then
        platform.font_fallbacks_for_request request1 plo.font reference_text
      else []
    match fallbackWalk db ⟨out0.result, out0.scripts, out0.chars, out0.cache⟩ fallbacks with
    | none => none
    | some w =>
      let px := request1.pixel_size.getD 0
      some ⟨⟨(plo.font :: w.accepted).map (fun f => ⟨f, px⟩), px⟩, w.state.cache, w.loads⟩

def exDbC1 : FontDb :=
  ⟨fun fam _ => if fam = some (String.singleton 'F') then some 1 else some 0,
    fun _ => some (fun _ => true), fun _ => 1, fun _ => -1, fun _ => 1⟩

def exFallbackReq : FontRequest := ⟨some (String.singleton 'F'), some 400, some 12, none⟩

def exPlatform : Platform := ⟨fun _ _ _ => [exFallbackReq]⟩

def exPrimaryReq : FontRequest := ⟨none, none, none, none⟩

def exC1CacheAfterPrimary : FontCache := ⟨[(⟨emptyString, 400⟩, ⟨0, 0, 1, -1, 1⟩)], [], 1⟩

/-- Counterexample to claim C1: the primary font alone covers the whole
reference text, so both uncovered sets are empty before the walk even starts;
yet because that emptying check reported Improved (not Complete), the walk
still loads one fallback candidate. The first two conjuncts pin down the state
entering the walk (loading the primary and checking its coverage empties both
sets), and the last shows a further load_single_font call happened. -/
theorem font_walk_loads_after_empty_counterexample :
    Option.map LoadOutput.cache
        (load_single_font exDbC1 exCacheEmpty ⟨none, some 400, some 12, none⟩) =
      some exC1CacheAfterPrimary
    ∧ scanText exEnv ['a'] = ([(Script.Other 0, 'a')], [])
    ∧ (check_and_update_script_coverage exDbC1 exC1CacheAfterPrimary
        [(Script.Other 0, 'a')] [] 0).scripts = []
    ∧ (check_and_update_script_coverage exDbC1 exC1CacheAfterPrimary
        [(Script.Other 0, 'a')] [] 0).chars = []
    ∧ Option.map FontOutput.loads
        (FontCache.font exDbC1 exEnv exPlatform exCacheEmpty exPrimaryReq 1 ['a']) =
      some [exFallbackReq]
    ∧ [exFallbackReq] ≠ ([] : List FontRequest) := by
  decide

/-- Claim C1 (amended): the walk stops loading as soon as the coverage-check
result becomes Complete: entering the walk (or any of its suffixes) with a
Complete result loads no candidate font at all and accepts none. (Emptying the
uncovered sets is not by itself enough: the check that empties them reports
Improved, so one further candidate is still loaded before Complete stops the
walk, as the counterexample shows.) -/
theorem fallbackWalk_stops_on_complete (db : FontDb) (st : WalkState)
    (cands : List FontRequest) (h : st.result = .Complete) :
    fallbackWalk db st cands = some ⟨[], st, []⟩ := by
  induction cands with
  | nil => rfl
  | cons req rest ih =>
    rw [fallbackWalk, if_pos h]
    exact ih

def exCompleteState : WalkState := ⟨.Complete, [], [], exCacheEmpty⟩

/-- Witness for the amended C1: a concrete walk entered with a Complete result
over a non-empty candidate list performs no load. -/
theorem fallbackWalk_stops_on_complete_witness :
    fallbackWalk exDbC1 exCompleteState [exFallbackReq] = some ⟨[], exCompleteState, []⟩ :=
  fallbackWalk_stops_on_complete exDbC1 exCompleteState [exFallbackReq] rfl

/-- ScaledFont ascent (FontMetrics impl): the face's design-unit ascent scaled
by pixel_size over units_per_em. -/
def ScaledFont.ascent (f : ScaledFont) : ℚ :=
  f.font.ascent * f.pixel_size / f.font.units_per_em

/-- ScaledFont descent (FontMetrics impl): the face's design-unit descent
scaled by pixel_size over units_per_em. -/
def ScaledFont.descent (f : ScaledFont) : ℚ :=
  f.font.descent * f.pixel_size / f.font.units_per_em

/-- Composite Font ascent (FontMetrics impl): reduce over f32::max across the
constituent ScaledFonts, 0 for an empty list (unwrap_or_default). -/
def Font.ascent (f : Font) : ℚ :=
  match f.fonts.map ScaledFont.ascent with
  | [] => 0
  | a :: rest => rest.foldl max a

/-- Composite Font descent (FontMetrics impl): reduce over f32::min across the
constituent ScaledFonts, 0 for an empty list (unwrap_or_default). -/
def Font.descent (f : Font) : ℚ :=
  match f.fonts.map ScaledFont.descent with
  | [] => 0
  | a :: rest => rest.foldl min a

theorem foldl_max_mem {α : Type} [LinearOrder α] :
    ∀ (l : List α) (a : α), l.foldl max a ∈ a :: l := by
  intro l
  induction l with
  | nil => intro a; simp
  | cons b t ih =>
    intro a
    have h := ih (max a b)
    rw [List.foldl_cons]
    rcases List.mem_cons.mp h with h | h
    · rw [h]
      rcases max_choice a b with hc | hc
      · rw [hc]
        exact List.mem_cons_self _ _
      · rw [hc]
        exact List.mem_cons_of_mem _ (List.mem_cons_self _ _)
    · exact List.mem_cons_of_mem _ (List.mem_cons_of_mem _ h)

theorem le_foldl_max {α : Type} [LinearOrder α] :
    ∀ (l : List α) (a x : α), x ∈ a :: l → x ≤ l.foldl max a := by
  intro l
  induction l with
  | nil =>
    intro a x hx
    rcases List.mem_cons.mp hx with h | h
    · exact le_of_eq h
    · exact absurd h (List.not_mem_nil x)
  | cons b t ih =>
    intro a x hx
    rw [List.foldl_cons]
    rcases List.mem_cons.mp hx with h | h
    · exact le_trans (le_of_eq h) (le_trans (le_max_left a b) (ih (max a b) (max a b) (List.mem_cons_self _ _)))
    · rcases List.mem_cons.mp h with h2 | h2
      · exact le_trans (le_of_eq h2) (le_trans (le_max_right a b) (ih (max a b) (max a b) (List.mem_cons_self _ _)))
      · exact ih (max a b) x (List.mem_cons_of_mem _ h2)

theorem foldl_min_mem {α : Type} [LinearOrder α] :
    ∀ (l : List α) (a : α), l.foldl min a ∈ a :: l := by
  intro l
  induction l with
  | nil => intro a; simp
  | cons b t ih =>
    intro a
    have h := ih (min a b)
    rw [List.foldl_cons]
    rcases List.mem_cons.mp h with h | h
    · rw [h]
      rcases min_choice a b with hc | hc
      · rw [hc]
        exact List.mem_cons_self _ _
      · rw [hc]
        exact List.mem_cons_of_mem _ (List.mem_cons_self _ _)
    · exact List.mem_cons_of_mem _ (List.mem_cons_of_mem _ h)

theorem foldl_min_le {α : Type} [LinearOrder α] :
    ∀ (l : List α) (a x : α), x ∈ a :: l → l.foldl min a ≤ x := by
  intro l
  induction l with
  | nil =>
    intro a x hx
    rcases List.mem_cons.mp hx with h | h
    · exact le_of_eq h.symm
    · exact absurd h (List.not_mem_nil x)
  | cons b t ih =>
    intro a x hx
    rw [List.foldl_cons]
    rcases List.mem_cons.mp hx with h | h
    · exact le_trans (le_trans (ih (min a b) (min a b) (List.mem_cons_self _ _)) (min_le_left a b)) (le_of_eq h.symm)
    · rcases List.mem_cons.mp h with h2 | h2
      · exact le_trans (le_trans (ih (min a b) (min a b) (List.mem_cons_self _ _)) (min_le_right a b)) (le_of_eq h2.symm)
      · exact ih (min a b) x (List.mem_cons_of_mem _ h2)

/-- Claim C7: for a non-empty composite font, Font.ascent is the maximum of
the constituent ScaledFont ascents (it is one of them and bounds all of them),
Font.descent is the minimum of the constituent descents, and each constituent
value is the face's design-unit metric scaled by pixel_size / units_per_em. -/
theorem font_metrics_extremes (f : Font) (h : f.fonts ≠ []) :
    (Font.ascent f ∈ f.fonts.map ScaledFont.ascent
      ∧ ∀ a ∈ f.fonts.map ScaledFont.ascent, a ≤ Font.ascent f)
    ∧ (Font.descent f ∈ f.fonts.map ScaledFont.descent
      ∧ ∀ d ∈ f.fonts.map ScaledFont.descent, Font.descent f ≤ d)
    ∧ ∀ g ∈ f.fonts,
        ScaledFont.ascent g = g.font.ascent * g.pixel_size / g.font.units_per_em
        ∧ ScaledFont.descent g = g.font.descent * g.pixel_size / g.font.units_per_em := by
  refine ⟨?_, ?_, fun g _ => ⟨rfl, rfl⟩⟩
  · rw [Font.ascent]
    cases hm : f.fonts.map ScaledFont.ascent with
    | nil => exact absurd (List.map_eq_nil_iff.mp hm) h
    | cons a rest =>
      exact ⟨foldl_max_mem rest a, fun x hx => le_foldl_max rest a x hx⟩
  · rw [Font.descent]
    cases hm : f.fonts.map ScaledFont.descent with
    | nil => exact absurd (List.map_eq_nil_iff.mp hm) h
    | cons a rest =>
      exact ⟨foldl_min_mem rest a, fun x hx => foldl_min_le rest a x hx⟩

def exFontC7 : Font := ⟨[⟨⟨0, 0, 10, -2, 5⟩, 10⟩, ⟨⟨1, 1, 6, -8, 2⟩, 10⟩], 10⟩

/-- Witness for C7: a concrete two-font composite whose ascent is one of the
constituent scaled ascents and bounds the first constituent's ascent. -/
theorem font_metrics_extremes_witness :
    Font.ascent exFontC7 ∈ exFontC7.fonts.map ScaledFont.ascent
    ∧ ScaledFont.ascent ⟨⟨0, 0, 10, -2, 5⟩, 10⟩ ≤ Font.ascent exFontC7
    ∧ Font.descent exFontC7 ∈ exFontC7.fonts.map ScaledFont.descent :=
  ⟨(font_metrics_extremes exFontC7 (by simp [exFontC7])).1.1,
    (font_metrics_extremes exFontC7 (by simp [exFontC7])).1.2 _ (by simp [exFontC7]),
    (font_metrics_extremes exFontC7 (by simp [exFontC7])).2.1.1⟩

inductive TextHorizontalAlignment where
  | left
  | center
  | right
deriving DecidableEq

inductive TextVerticalAlignment where
  | top
  | center
  | bottom
deriving DecidableEq

inductive TextWrap where
  | no_wrap
  | word_wrap
deriving DecidableEq

inductive TextOverflow where
  | clip
  | elide
deriving DecidableEq

/-- One glyph of a femtovg TextMetrics: its advance and the byte index of the
character it came from. -/
structure GlyphMetrics where
  advance_x : ℚ
  byte_index : Nat
deriving DecidableEq

/-- femtovg TextMetrics for a measured line: total width and per-glyph data. -/
structure TextMetrics where
  width : ℚ
  glyphs : List GlyphMetrics
deriving DecidableEq

/-- Oracles for the femtovg text context and the core text layout used by
layout_text_lines: measure_font(paint).height(), font.text_size(...).height
(argument is the optional wrap width), break_text and measure_text. Strings
are lists of characters and byte offsets become character indices. -/
structure TextCtx where
  fontHeight : ℚ
  textSizeHeight : Option ℚ → ℚ
  breakText : ℚ → List Char → Nat
  measureText : List Char → TextMetrics

/-- All arguments of layout_text_lines other than the collaborators. -/
structure LayoutParams where
  string : List Char
  maxWidth : ℚ
  maxHeight : ℚ
  horizontal_alignment : TextHorizontalAlignment
  vertical_alignment : TextVerticalAlignment
  wrap : TextWrap
  overflow : TextOverflow
  single_line : Bool
deriving DecidableEq

/-- One line handed to the layout_line sink: its text, origin, starting byte
offset, and the width of the TextMetrics passed along with it. -/
structure LineRecord where
  text : List Char
  x : ℚ
  y : ℚ
  start : Nat
  metricsWidth : ℚ
deriving DecidableEq

/-- The x origin computed inside process_line from the horizontal alignment,
the box width and the measured line width. -/
def lineX (halign : TextHorizontalAlignment) (max_width line_width : ℚ) : ℚ :=
  match halign with
  | .left => 0
  | .center => max_width / 2 - min max_width line_width / 2
  | .right => max_width - min max_width line_width

/-- The process_line closure: build the line record reported to the sink. -/
def process_line (halign : TextHorizontalAlignment) (max_width : ℚ)
    (text : List Char) (y : ℚ) (start : Nat) (m : TextMetrics) : LineRecord :=
  ⟨text, lineX halign max_width m.width, y, start, m.width⟩

def ellipsisChar : Char := '…'

/-- The glyph scan of the truncation branch: accumulate advances and return
the byte index of the first glyph whose accumulated advance reaches w. -/
def glyphScan (w : ℚ) : ℚ → List GlyphMetrics → Option Nat
  | _, [] => none
  | current_x, g :: rest =>
    let x2 := current_x + g.advance_x
    if x2 ≥ w then some g.byte_index else glyphScan w x2 rest

/-- The main line loop of layout_text_lines. Fuel bounds the iteration count;
string.length + 1 suffices since every iteration either stops or strictly
advances the byte cursor. -/
def layoutLoop (ctx : TextCtx) (P : LayoutParams) (wrapB elideB : Bool) :
    Nat → ℚ → Nat → List LineRecord
  | 0, _, _ => []
  | fuel + 1, y, start =>
    if start < P.string.length ∧ y + ctx.fontHeight ≤ P.maxHeight then
      if wrapB = true ∧ (elideB = false ∨ y + 2 * ctx.fontHeight ≤ P.maxHeight) then
        let bi := ctx.breakText P.maxWidth (P.string.drop start)
        if bi = 0 then []
        else
          let index := start + bi
          let line := (P.string.drop start).take bi
          let m := ctx.measureText line
          process_line P.horizontal_alignment P.maxWidth line y start m
            :: layoutLoop ctx P wrapB elideB fuel (y + ctx.fontHeight) index
      else
        let index :=
          if P.single_line then P.string.length
          else
            match (P.string.drop start).findIdx? (fun ch => ch == '\n') with
            | some i => start + i + 1
            | none => P.string.length
        let line := (P.string.drop start).take (index - start)
        let m := ctx.measureText line
        let elide_last_line :=
          elideB = true ∧ index < P.string.length ∧ P.maxHeight < y + 2 * ctx.fontHeight
        if m.width > P.maxWidth ∨ elide_last_line then
          let w := P.maxWidth -
            (if elideB then (ctx.measureText [ellipsisChar]).width else 0)
          match glyphScan w 0 m.glyphs with
          | some bIdx =>
            let txt := line.take bIdx
            let emitted := if elideB then txt ++ [ellipsisChar] else txt
            process_line P.horizontal_alignment P.maxWidth emitted y start m
              :: layoutLoop ctx P wrapB elideB fuel (y + ctx.fontHeight) index
          | none =>
            if elide_last_line then
              process_line P.horizontal_alignment P.maxWidth (line ++ [ellipsisChar]) y start m
                :: layoutLoop ctx P wrapB elideB fuel (y + ctx.fontHeight) index
            else
              process_line P.horizontal_alignment P.maxWidth line y start m
                :: layoutLoop ctx P wrapB elideB fuel (y + ctx.fontHeight) index
        else
          process_line P.horizontal_alignment P.maxWidth line y start m
            :: layoutLoop ctx P wrapB elideB fuel (y + ctx.fontHeight) index
    else []

/-- Result of layout_text_lines: the lines reported to the sink, in order,
and the returned baseline y coordinate. -/
structure LayoutOutput where
  lines : List LineRecord
  baseline_y : ℚ
deriving DecidableEq

/-- layout_text_lines: compute the baseline from the vertical alignment and
the total text height (the font height in single-line mode), then run the
line loop from there. -/
def layout_text_lines (ctx : TextCtx) (P : LayoutParams) : LayoutOutput :=
  let wrapB := decide (P.wrap = TextWrap.word_wrap)
  let elideB := decide (P.overflow = TextOverflow.elide)
  let text_height :=
    if P.single_line then ctx.fontHeight
    else ctx.textSizeHeight (if wrapB then some P.maxWidth else none)
  let baseline_y :=
    match P.vertical_alignment with
    | .top => 0
    | .center => P.maxHeight / 2 - text_height / 2
    | .bottom => P.maxHeight - text_height
  ⟨layoutLoop ctx P wrapB elideB (P.string.length + 1) baseline_y 0, baseline_y⟩

def ctxC3 : TextCtx := ⟨10, fun _ => 10, fun _ _ => 0, fun _ => ⟨0, []⟩⟩

def paramsC3 : LayoutParams :=
  ⟨['a', 'b'], 5, 100, .left, .top, .word_wrap, .clip, false⟩

/-- Counterexample to claim C3: wrapping is enabled and the break search
returns 0 on a non-empty remaining text, yet layout_text_lines emits no line
at all for it — the loop breaks instead of emitting. -/
theorem break_zero_emits_counterexample :
    ctxC3.breakText paramsC3.maxWidth (paramsC3.string.drop 0) = 0
    ∧ paramsC3.wrap = TextWrap.word_wrap
    ∧ paramsC3.string ≠ []
    ∧ (layout_text_lines ctxC3 paramsC3).lines = [] := by
  refine ⟨rfl, rfl, by decide, ?_⟩
  norm_num [layout_text_lines, layoutLoop, ctxC3, paramsC3]

/-- Claim C3 (amended): in the wrap branch, when the break search returns an
immediate break at offset 0 (an unbreakable overflowing word), the line loop
stops at once, producing no line for that text and no output for any of the
remaining text — it does not emit the degenerate line and proceed. -/
theorem layout_break_zero_stops (ctx : TextCtx) (P : LayoutParams)
    (wrapB elideB : Bool) (fuel : Nat) (y : ℚ) (start : Nat)
    (hs : start < P.string.length) (hy : y + ctx.fontHeight ≤ P.maxHeight)
    (hw : wrapB = true) (he : elideB = false ∨ y + 2 * ctx.fontHeight ≤ P.maxHeight)
    (hb : ctx.breakText P.maxWidth (P.string.drop start) = 0) :
    layoutLoop ctx P wrapB elideB (fuel + 1) y start = [] := by
  simp only [layoutLoop]
  rw [if_pos ⟨hs, hy⟩, if_pos ⟨hw, he⟩]
  simp [hb]

/-- Witness for the amended C3: a concrete loop state where the break search
returns 0 and the loop produces no lines. -/
theorem layout_break_zero_stops_witness :
    layoutLoop ctxC3 paramsC3 true false 3 0 0 = [] :=
  layout_break_zero_stops ctxC3 paramsC3 true false 2 0 0 (by decide)
    (by norm_num [ctxC3, paramsC3]) rfl (Or.inl rfl) rfl

theorem layoutLoop_x (ctx : TextCtx) (P : LayoutParams) (wrapB elideB : Bool) :
    ∀ (fuel : Nat) (y : ℚ) (start : Nat) (r : LineRecord),
      r ∈ layoutLoop ctx P wrapB elideB fuel y start →
      r.x = lineX P.horizontal_alignment P.maxWidth r.metricsWidth := by
  intro fuel
  induction fuel with
  | zero =>
    intro y start r h
    exact absurd h (by simp [layoutLoop])
  | succ n ih =>
    intro y start r h
    simp only [layoutLoop] at h
    repeat' split at h
    all_goals try exact absurd h (List.not_mem_nil r)
    all_goals rcases List.mem_cons.mp h with h | h
    all_goals try (subst h; rfl)
    all_goals exact ih _ _ r h

/-- Claim C8: every line record that layout_text_lines reports to the sink has
an x origin of 0 for left alignment, (W - min(Lw, W)) / 2 for center and
W - min(Lw, W) for right, where W is the box width and Lw the measured width
passed with the record. -/
theorem layout_line_x_alignment (ctx : TextCtx) (P : LayoutParams)
    (r : LineRecord) (h : r ∈ (layout_text_lines ctx P).lines) :
    r.x = match P.horizontal_alignment with
      | .left => 0
      | .center => (P.maxWidth - min r.metricsWidth P.maxWidth) / 2
      | .right => P.maxWidth - min r.metricsWidth P.maxWidth := by
  have hx : r.x = lineX P.horizontal_alignment P.maxWidth r.metricsWidth := by
    rw [layout_text_lines] at h
    simp only at h
    exact layoutLoop_x ctx P _ _ _ _ _ r h
  cases hh : P.horizontal_alignment with
  | left => simp only [hx, lineX, hh]
  | center =>
    simp only [hx, lineX, hh]
    rw [min_comm]
    ring
  | right =>
    simp only [hx, lineX, hh]
    rw [min_comm]

def ctxC8 : TextCtx := ⟨10, fun _ => 10, fun _ _ => 0, fun _ => ⟨50, []⟩⟩

def pC8 : LayoutParams := ⟨['a'], 200, 100, .right, .top, .no_wrap, .clip, true⟩

def recC8 : LineRecord := ⟨['a'], 150, 0, 0, 50⟩

/-- Witness for C8: a concrete single right-aligned line of width 50 in a box
of width 200 is reported with x origin 200 - min(50, 200) = 150. -/
theorem layout_line_x_alignment_witness :
    recC8 ∈ (layout_text_lines ctxC8 pC8).lines
    ∧ recC8.x = pC8.maxWidth - min recC8.metricsWidth pC8.maxWidth :=
  ⟨by
    norm_num [layout_text_lines, layoutLoop, ctxC8, pC8, recC8, process_line, lineX]
    decide,
    layout_line_x_alignment ctxC8 pC8 recC8
      (by
        norm_num [layout_text_lines, layoutLoop, ctxC8, pC8, recC8, process_line, lineX]
        decide)⟩

/-- Claim C9: in single-line mode (where the text height is the font's line
height h), layout_text_lines computes and returns a baseline y of 0 for top
alignment, (H - h) / 2 for center and H - h for bottom, H being the box
height. -/
theorem layout_baseline_y (ctx : TextCtx) (P : LayoutParams)
    (h : P.single_line = true) :
    (layout_text_lines ctx P).baseline_y =
      match P.vertical_alignment with
      | .top => 0
      | .center => (P.maxHeight - ctx.fontHeight) / 2
      | .bottom => P.maxHeight - ctx.fontHeight := by
  cases hv : P.vertical_alignment with
  | top => simp [layout_text_lines, h, hv]
  | center =>
    simp [layout_text_lines, h, hv]
    ring
  | bottom => simp [layout_text_lines, h, hv]

def ctxC9 : TextCtx := ⟨20, fun _ => 20, fun _ _ => 0, fun _ => ⟨0, []⟩⟩

def pC9 : LayoutParams := ⟨[], 10, 100, .left, .bottom, .no_wrap, .clip, true⟩

/-- Witness for C9: box height 100, single line of height 20, bottom alignment
gives baseline y = 80. -/
theorem layout_baseline_y_witness :
    (layout_text_lines ctxC9 pC9).baseline_y = 80 := by
  have h := layout_baseline_y ctxC9 pC9 rfl
  rw [h]
  show (100 : ℚ) - 20 = 80
  norm_num

/-- register_font_from_memory (lines 28-36): run the font database's
load_font_source on the provided bytes, discard its result, and return Ok(()).
The database and its load operation are the external fontdb collaborator,
abstracted as a state transition returning a result that this wrapper drops. -/
def register_font_from_memory {Db Bytes LoadResult : Type}
    (load_font_source : Db → Bytes → LoadResult × Db) (available_fonts : Db)
    (data : Bytes) : Except String Unit × Db :=
  let loaded := load_font_source available_fonts data
  (Except.ok (), loaded.2)

/-- Claim C10: register_font_from_memory returns Ok(()) for every input slice
and every outcome of the underlying load: the load result is discarded, so a
load failure is never surfaced to the caller as an error value. -/
theorem register_font_from_memory_ok {Db Bytes LoadResult : Type}
    (load_font_source : Db → Bytes → LoadResult × Db) (db : Db) (data : Bytes) :
    (register_font_from_memory load_font_source db data).1 = Except.ok () := rfl

end SlintFonts
